import Mathlib

/-!
# Verification of the Power Platform Utility core

A shallow embedding, in Lean 4, of the command-execution and
environment-management core of the Power-Platform-Utility repository
(`src/core/pac_cli.py` and `src/core/environment.py`), together with
proofs about the specified behaviour.

Modelling conventions:
* The external process layer (`subprocess.run`) is abstracted by a
  `runner : List String → Nat → ProcResult` giving, for each full command
  line and timeout, either a completed process (exit code, stdout, stderr)
  or a timeout.
* JSON decoding (`json.loads`) is abstracted by a
  `decode : String → Option (List JVal)` parameter: `none` models a
  `json.JSONDecodeError`, `some xs` a successfully decoded JSON array.
* Python values appearing in decoded JSON records are modelled by `JVal`.
  Python `None` is `JVal.null`; truthiness and the `or` operator are
  modelled by `pyTruthy`/`pyOr`; a method call on a value of the wrong
  dynamic type (e.g. `.lower()` on a non-string, `.get` on a non-dict)
  is modelled by an `Except String` error carrying the exception name.
* `datetime.strptime` is modelled faithfully for the format directives
  the code uses (`%Y %m %d %H %M %S %f` plus literals and whitespace),
  following CPython `_strptime`: each directive matches the regular
  expression CPython compiles for it (leftmost alternative first, which
  for these formats is equivalent to full backtracking since every
  numeric field is followed by a non-digit), the whole input must be
  consumed, and the resulting field values must form a valid `datetime`.
-/

/-- A Python/JSON value as produced by `json.loads`. `null` also models
Python `None`. -/
inductive JVal where
  | null : JVal
  | bool : Bool → JVal
  | num : Int → JVal
  | str : String → JVal
  | arr : List JVal → JVal
  | obj : List (String × JVal) → JVal
deriving Repr

mutual

def JVal.decEq : (a b : JVal) → Decidable (a = b)
  | .null, .null => isTrue rfl
  | .bool a, .bool b =>
    if h : a = b then isTrue (by rw [h])
    else isFalse (fun he => h (by injection he))
  | .num a, .num b =>
    if h : a = b then isTrue (by rw [h])
    else isFalse (fun he => h (by injection he))
  | .str a, .str b =>
    if h : a = b then isTrue (by rw [h])
    else isFalse (fun he => h (by injection he))
  | .arr a, .arr b =>
    match JVal.decEqList a b with
    | isTrue h => isTrue (by rw [h])
    | isFalse h => isFalse (fun he => h (by injection he))
  | .obj a, .obj b =>
    match JVal.decEqObj a b with
    | isTrue h => isTrue (by rw [h])
    | isFalse h => isFalse (fun he => h (by injection he))
  | .null, .bool _ | .null, .num _ | .null, .str _ | .null, .arr _ | .null, .obj _
  | .bool _, .null | .bool _, .num _ | .bool _, .str _ | .bool _, .arr _ | .bool _, .obj _
  | .num _, .null | .num _, .bool _ | .num _, .str _ | .num _, .arr _ | .num _, .obj _
  | .str _, .null | .str _, .bool _ | .str _, .num _ | .str _, .arr _ | .str _, .obj _
  | .arr _, .null | .arr _, .bool _ | .arr _, .num _ | .arr _, .str _ | .arr _, .obj _
  | .obj _, .null | .obj _, .bool _ | .obj _, .num _ | .obj _, .str _ | .obj _, .arr _ =>
    isFalse (by intro h; exact JVal.noConfusion h)

def JVal.decEqList : (a b : List JVal) → Decidable (a = b)
  | [], [] => isTrue rfl
  | a :: as, b :: bs =>
    match JVal.decEq a b, JVal.decEqList as bs with
    | isTrue h1, isTrue h2 => isTrue (by rw [h1, h2])
    | isFalse h1, _ => isFalse (fun he => h1 (by injection he))
    | _, isFalse h2 => isFalse (fun he => h2 (by injection he))
  | [], _ :: _ => isFalse (fun he => List.noConfusion he)
  | _ :: _, [] => isFalse (fun he => List.noConfusion he)

def JVal.decEqObj : (a b : List (String × JVal)) → Decidable (a = b)
  | [], [] => isTrue rfl
  | (k1, v1) :: as, (k2, v2) :: bs =>
    if h0 : k1 = k2 then
      match JVal.decEq v1 v2, JVal.decEqObj as bs with
      | isTrue h1, isTrue h2 => isTrue (by rw [h0, h1, h2])
      | isFalse h1, _ =>
        isFalse (fun he => h1 (by injection he with h3 h4; injection h3))
      | _, isFalse h2 => isFalse (fun he => h2 (by injection he))
    else isFalse (fun he => h0 (by injection he with h3 h4; injection h3))
  | [], _ :: _ => isFalse (fun he => List.noConfusion he)
  | _ :: _, [] => isFalse (fun he => List.noConfusion he)

end

instance : DecidableEq JVal := JVal.decEq

/-- Python `str.lower()`: lower-case character by character (ASCII case
mapping, as both Python and Lean apply to these inputs). -/
def pyStrLower (s : String) : String := ⟨s.data.map Char.toLower⟩

namespace JVal

/-- Python truthiness (`bool(v)`) for the modelled values. -/
def pyTruthy : JVal → Bool
  | .null => false
  | .bool b => b
  | .num n => n != 0
  | .str s => s != ""
  | .arr l => !l.isEmpty
  | .obj l => !l.isEmpty

/-- Python `a or b`: the first operand if truthy, otherwise the second. -/
def pyOr (a b : JVal) : JVal := if a.pyTruthy then a else b

/-- Is this value a Python `str`? -/
def isStr : JVal → Bool
  | .str _ => true
  | _ => false

/-- The underlying string of a `str` value (defaults to `""`); used only in
specification statements, never in code translations. -/
def asStr : JVal → String
  | .str s => s
  | _ => ""

/-- Python `v.lower()`: defined on `str`, raises `AttributeError` otherwise. -/
def pyLower : JVal → Except String String
  | .str s => .ok (pyStrLower s)
  | _ => .error "AttributeError: lower"

end JVal

/-- `dict.get(key, default)` over the association list modelling a Python
dict (keys are unique in a dict, so first match is the match). -/
def dictGetD (kvs : List (String × JVal)) (key : String) (dflt : JVal) : JVal :=
  match kvs.find? (fun kv => kv.1 = key) with
  | some kv => kv.2
  | none => dflt

/-- Decidable equality for `Except` results, for concrete evaluation. -/
instance {e a : Type} [DecidableEq e] [DecidableEq a] : DecidableEq (Except e a)
  | .ok x, .ok y =>
    if h : x = y then isTrue (by rw [h]) else isFalse (fun he => h (by injection he))
  | .error x, .error y =>
    if h : x = y then isTrue (by rw [h]) else isFalse (fun he => h (by injection he))
  | .ok _, .error _ => isFalse (fun he => Except.noConfusion he)
  | .error _, .ok _ => isFalse (fun he => Except.noConfusion he)

/-- The outcome of one `subprocess.run` invocation: the process either
completed with an exit code and captured streams, or hit the timeout
(`subprocess.TimeoutExpired`). -/
inductive ProcResult where
  | completed (returncode : Int) (stdout stderr : String) : ProcResult
  | timedOut : ProcResult
deriving DecidableEq, Repr

/-- Did the process complete with exit code zero? -/
def ProcResult.exitZero : ProcResult → Bool
  | .completed rc _ _ => rc == 0
  | .timedOut => false

/-- The process behaviour of the operating system: for each full command
line and timeout (seconds), the outcome of running it. -/
def Runner : Type := List String → Nat → ProcResult

/-- The dictionary returned by `PACCLIWrapper.run_command`. -/
structure CommandResult where
  success : Bool
  stdout : String
  stderr : String
  returncode : Int
  command : String
deriving DecidableEq, Repr

namespace PACCLIWrapper

/-- `PACCLIWrapper.run_command`: prefix the fixed executable name `"pac"`,
run with the given timeout (default 30 s); a completed process yields
`success = (returncode == 0)` with its streams; a timeout yields the fixed
failure record and never raises. -/
def run_command (runner : Runner) (command : List String)
    (timeout : Nat := 30) : CommandResult :=
  let full_command := "pac" :: command
  match runner full_command timeout with
  | .completed rc out err =>
      { success := rc == 0, stdout := out, stderr := err,
        returncode := rc, command := " ".intercalate full_command }
  | .timedOut =>
      { success := false, stdout := "", stderr := "Command timed out",
        returncode := -1, command := " ".intercalate full_command }

/-- `PACCLIWrapper.get_environments`: run `pac org list --json`; on success
decode stdout as JSON (decode failure gives `[]`), on failure give `[]`.
`decode` abstracts `json.loads` restricted to array results. -/
def get_environments (runner : Runner)
    (decode : String → Option (List JVal)) : List JVal :=
  let result := run_command runner ["org", "list", "--json"]
  if result.success then
    match decode result.stdout with
    | some environments => environments
    | none => []
  else []

/-- `PACCLIWrapper.select_environment`: run `pac org select --environment
<url>` and return the success flag. -/
def select_environment (runner : Runner) (environment_url : String) : Bool :=
  let result := run_command runner ["org", "select", "--environment", environment_url]
  result.success

/-- `PACCLIWrapper.get_solutions`: run `pac solution list --json`; same
JSON-decode contract as `get_environments`. -/
def get_solutions (runner : Runner)
    (decode : String → Option (List JVal)) : List JVal :=
  let result := run_command runner ["solution", "list", "--json"]
  if result.success then
    match decode result.stdout with
    | some solutions => solutions
    | none => []
  else []

/-- The argument list `PACCLIWrapper.export_solution` builds before running:
the export invocation with `--managed` appended only when requested. -/
def export_command (solution_name output_path : String) (managed : Bool) :
    List String :=
  let command := ["solution", "export", "--name", solution_name,
                  "--path", output_path]
  if managed then command ++ ["--managed"] else command

/-- `PACCLIWrapper.export_solution`: build the export command and run it
with a 300-second timeout; return the success flag. -/
def export_solution (runner : Runner) (solution_name output_path : String)
    (managed : Bool := false) : Bool :=
  let result := run_command runner (export_command solution_name output_path managed) 300
  result.success

/-- The argument list `PACCLIWrapper.import_solution` builds before running:
the import invocation with `--publish-changes` appended only when
requested. -/
def import_command (solution_path : String) (publish_workflows : Bool) :
    List String :=
  let command := ["solution", "import", "--path", solution_path]
  if publish_workflows then command ++ ["--publish-changes"] else command

/-- `PACCLIWrapper.import_solution`: build the import command and run it
with a 600-second timeout; return the success flag. -/
def import_solution (runner : Runner) (solution_path : String)
    (publish_workflows : Bool := true) : Bool :=
  let result := run_command runner (import_command solution_path publish_workflows) 600
  result.success

end PACCLIWrapper

/-- A naive `datetime.datetime` value (no timezone, as produced by
`datetime.strptime`). -/
structure DateTime where
  year : Nat
  month : Nat
  day : Nat
  hour : Nat
  minute : Nat
  second : Nat
  microsecond : Nat
deriving DecidableEq, Repr

/-- Truncation of a `DateTime` to second precision ("the same wall-clock
instant to second precision" compares these). -/
def DateTime.toSecond (d : DateTime) : Nat × Nat × Nat × Nat × Nat × Nat :=
  (d.year, d.month, d.day, d.hour, d.minute, d.second)

/-- The field record CPython `_strptime` accumulates while matching a
format; fields keep `strptime`'s defaults (1900-01-01 00:00:00.000000)
until a directive sets them. -/
structure StrpFields where
  y : Nat := 1900
  m : Nat := 1
  d : Nat := 1
  hh : Nat := 0
  mm : Nat := 0
  ss : Nat := 0
  f : Nat := 0
deriving DecidableEq, Repr

/-- Digit value of a character, if it is an ASCII digit. -/
def digitVal (c : Char) : Option Nat :=
  if '0' ≤ c ∧ c ≤ '9' then some (c.toNat - '0'.toNat) else none

/-- Is the character ASCII whitespace (Python regex `\s` over ASCII)? -/
def isSpaceChar (c : Char) : Bool :=
  c = ' ' ∨ c = '\t' ∨ c = '\n' ∨ c = '\x0b' ∨ c = '\x0c' ∨ c = '\r'

/-- Match CPython's regex for `%Y` (`\d\d\d\d`): exactly four digits. -/
def matchY : List Char → Option (Nat × List Char)
  | c1 :: c2 :: c3 :: c4 :: rest => do
    let d1 ← digitVal c1
    let d2 ← digitVal c2
    let d3 ← digitVal c3
    let d4 ← digitVal c4
    some (d1 * 1000 + d2 * 100 + d3 * 10 + d4, rest)
  | _ => none

/-- Match CPython's regex for `%m` (`1[0-2]|0[1-9]|[1-9]`), leftmost
alternative first. -/
def matchMonth : List Char → Option (Nat × List Char)
  | c1 :: c2 :: rest =>
    if c1 = '1' ∧ '0' ≤ c2 ∧ c2 ≤ '2' then some (10 + (c2.toNat - '0'.toNat), rest)
    else if c1 = '0' ∧ '1' ≤ c2 ∧ c2 ≤ '9' then some (c2.toNat - '0'.toNat, rest)
    else if '1' ≤ c1 ∧ c1 ≤ '9' then some (c1.toNat - '0'.toNat, c2 :: rest)
    else none
  | [c1] =>
    if '1' ≤ c1 ∧ c1 ≤ '9' then some (c1.toNat - '0'.toNat, []) else none
  | [] => none

/-- Match CPython's regex for `%d` (`3[01]|[1-2]\d|0[1-9]|[1-9]`). -/
def matchDay : List Char → Option (Nat × List Char)
  | c1 :: c2 :: rest =>
    if c1 = '3' ∧ ('0' ≤ c2 ∧ c2 ≤ '1') then some (30 + (c2.toNat - '0'.toNat), rest)
    else if ('1' ≤ c1 ∧ c1 ≤ '2') ∧ ('0' ≤ c2 ∧ c2 ≤ '9') then
      some ((c1.toNat - '0'.toNat) * 10 + (c2.toNat - '0'.toNat), rest)
    else if c1 = '0' ∧ '1' ≤ c2 ∧ c2 ≤ '9' then some (c2.toNat - '0'.toNat, rest)
    else if '1' ≤ c1 ∧ c1 ≤ '9' then some (c1.toNat - '0'.toNat, c2 :: rest)
    else none
  | [c1] =>
    if '1' ≤ c1 ∧ c1 ≤ '9' then some (c1.toNat - '0'.toNat, []) else none
  | [] => none

/-- Match CPython's regex for `%H` (`2[0-3]|[0-1]\d|\d`). -/
def matchHour : List Char → Option (Nat × List Char)
  | c1 :: c2 :: rest =>
    if c1 = '2' ∧ ('0' ≤ c2 ∧ c2 ≤ '3') then some (20 + (c2.toNat - '0'.toNat), rest)
    else if ('0' ≤ c1 ∧ c1 ≤ '1') ∧ ('0' ≤ c2 ∧ c2 ≤ '9') then
      some ((c1.toNat - '0'.toNat) * 10 + (c2.toNat - '0'.toNat), rest)
    else
      match digitVal c1 with
      | some d1 => some (d1, c2 :: rest)
      | none => none
  | [c1] =>
    match digitVal c1 with
    | some d1 => some (d1, [])
    | none => none
  | [] => none

/-- Match CPython's regex for `%M` (`[0-5]\d|\d`). -/
def matchMinute : List Char → Option (Nat × List Char)
  | c1 :: c2 :: rest =>
    if ('0' ≤ c1 ∧ c1 ≤ '5') ∧ ('0' ≤ c2 ∧ c2 ≤ '9') then
      some ((c1.toNat - '0'.toNat) * 10 + (c2.toNat - '0'.toNat), rest)
    else
      match digitVal c1 with
      | some d1 => some (d1, c2 :: rest)
      | none => none
  | [c1] =>
    match digitVal c1 with
    | some d1 => some (d1, [])
    | none => none
  | [] => none

/-- Match CPython's regex for `%S` (`6[0-1]|[0-5]\d|\d`); `60`/`61` match
here but are rejected later by the `datetime` constructor. -/
def matchSecond : List Char → Option (Nat × List Char)
  | c1 :: c2 :: rest =>
    if c1 = '6' ∧ ('0' ≤ c2 ∧ c2 ≤ '1') then some (60 + (c2.toNat - '0'.toNat), rest)
    else if ('0' ≤ c1 ∧ c1 ≤ '5') ∧ ('0' ≤ c2 ∧ c2 ≤ '9') then
      some ((c1.toNat - '0'.toNat) * 10 + (c2.toNat - '0'.toNat), rest)
    else
      match digitVal c1 with
      | some d1 => some (d1, c2 :: rest)
      | none => none
  | [c1] =>
    match digitVal c1 with
    | some d1 => some (d1, [])
    | none => none
  | [] => none

/-- Greedily take up to `k` leading digits. -/
def takeDigits : Nat → List Char → (List Nat × List Char)
  | 0, s => ([], s)
  | _, [] => ([], [])
  | k + 1, c :: rest =>
    match digitVal c with
    | some d =>
      let (ds, s) := takeDigits k rest
      (d :: ds, s)
    | none => ([], c :: rest)

/-- Match CPython's regex for `%f` (`[0-9]{1,6}`, greedy), then pad with
trailing zeros to microseconds: `fraction *= 10 ** (6 - len(digits))`. -/
def matchFraction (s : List Char) : Option (Nat × List Char) :=
  let (ds, rest) := takeDigits 6 s
  if ds.isEmpty then none
  else some ((ds.foldl (fun acc d => acc * 10 + d) 0) * 10 ^ (6 - ds.length), rest)

/-- Run the format string over the input, CPython `_strptime` style:
`%`-directives use the matchers above, a whitespace character in the
format matches one or more whitespace characters (`\s+`), any other
character matches itself case-insensitively (the compiled regex carries
`re.IGNORECASE`).  The whole input must be consumed (otherwise
`strptime` raises "unconverted data remains"). -/
def runFormat : List Char → List Char → StrpFields → Option StrpFields
  | [], [], acc => some acc
  | [], _ :: _, _ => none
  | '%' :: dir :: fmt, s, acc =>
    match dir with
    | 'Y' => match matchY s with
      | some (v, s) => runFormat fmt s { acc with y := v }
      | none => none
    | 'm' => match matchMonth s with
      | some (v, s) => runFormat fmt s { acc with m := v }
      | none => none
    | 'd' => match matchDay s with
      | some (v, s) => runFormat fmt s { acc with d := v }
      | none => none
    | 'H' => match matchHour s with
      | some (v, s) => runFormat fmt s { acc with hh := v }
      | none => none
    | 'M' => match matchMinute s with
      | some (v, s) => runFormat fmt s { acc with mm := v }
      | none => none
    | 'S' => match matchSecond s with
      | some (v, s) => runFormat fmt s { acc with ss := v }
      | none => none
    | 'f' => match matchFraction s with
      | some (v, s) => runFormat fmt s { acc with f := v }
      | none => none
    | _ => none
  | ['%'], _, _ => none
  | c :: fmt, s, acc =>
    if isSpaceChar c then
      match s with
      | c1 :: s1 =>
        if isSpaceChar c1 then runFormat fmt (s1.dropWhile isSpaceChar) acc
        else none
      | [] => none
    else
      match s with
      | c1 :: s1 => if c.toLower = c1.toLower then runFormat fmt s1 acc else none
      | [] => none

/-- Number of days in a month, Gregorian calendar (as validated by the
`datetime` constructor). -/
def daysInMonth (y m : Nat) : Nat :=
  if m = 2 then
    if y % 4 = 0 ∧ (y % 100 ≠ 0 ∨ y % 400 = 0) then 29 else 28
  else if m = 4 ∨ m = 6 ∨ m = 9 ∨ m = 11 then 30
  else 31

/-- The range checks the `datetime` constructor performs on the matched
fields (`MINYEAR ≤ year`, valid day of month, `second ≤ 59`; month and
hour/minute ranges are already guaranteed by the directive regexes). -/
def validFields (r : StrpFields) : Bool :=
  1 ≤ r.y ∧ r.y ≤ 9999 ∧ 1 ≤ r.m ∧ r.m ≤ 12 ∧
  1 ≤ r.d ∧ r.d ≤ daysInMonth r.y r.m ∧
  r.hh ≤ 23 ∧ r.mm ≤ 59 ∧ r.ss ≤ 59

/-- `datetime.strptime(date_string, format)`: match the format against the
whole input and build the `datetime`, or fail with a `ValueError`
(modelled as `none`). -/
def strptime (date_string format : String) : Option DateTime := do
  let r ← runFormat format.data date_string.data {}
  if validFields r then
    some ⟨r.y, r.m, r.d, r.hh, r.mm, r.ss, r.f⟩
  else none

namespace EnvironmentManager

/-- The ordered format list hard-coded in
`EnvironmentManager._parse_datetime`. -/
def formats : List String :=
  ["%Y-%m-%dT%H:%M:%S.%fZ",
   "%Y-%m-%dT%H:%M:%SZ",
   "%Y-%m-%d %H:%M:%S"]

/-- The `for fmt in formats` loop of `_parse_datetime`: try each format in
order, first successful parse wins, otherwise `None`. -/
def tryFormats (date_string : String) : List String → Option DateTime
  | [] => none
  | fmt :: rest =>
    match strptime date_string fmt with
    | some dt => some dt
    | none => tryFormats date_string rest

/-- `EnvironmentManager._parse_datetime`: falsy input (`None`, `""`, …)
gives `None`; a truthy string is tried against the format list; a truthy
non-string makes `strptime` raise `TypeError`, caught by the outer
`except Exception`, giving `None`.  Never raises. -/
def parse_datetime (date_string : JVal) : Option DateTime :=
  if !date_string.pyTruthy then none
  else
    match date_string with
    | .str s => tryFormats s formats
    | _ => none

end EnvironmentManager

/-- The `PowerPlatformEnvironment` dataclass.  Field values come from
`dict.get` on a decoded JSON record, so dynamically they are arbitrary
Python values (`JVal`), the annotations notwithstanding. -/
structure PowerPlatformEnvironment where
  name : JVal
  display_name : JVal
  url : JVal
  region : JVal
  environment_type : JVal
  state : JVal
  created_time : Option DateTime := none
deriving DecidableEq, Repr

/-- The behaviour of the injected `pac_cli_wrapper` as the
`EnvironmentManager` observes it: each call either returns a value or
raises (`Except.error` carries the exception's message). -/
structure PacCli where
  get_environments : Except String (List JVal)
  select_environment : JVal → Except String Bool

/-- The mutable state of an `EnvironmentManager` instance. -/
structure EnvironmentManager.State where
  environments : List PowerPlatformEnvironment := []
  current_environment : Option PowerPlatformEnvironment := none
deriving DecidableEq, Repr

namespace EnvironmentManager

/-- One iteration of the `for env in env_data` loop in
`refresh_environments`: build a `PowerPlatformEnvironment` from a raw
record.  On a non-dict record, `env.get` raises `AttributeError`. -/
def convertRecord (env : JVal) : Except String PowerPlatformEnvironment :=
  match env with
  | .obj kvs =>
    .ok { name := dictGetD kvs "EnvironmentName" (.str ""),
          display_name := dictGetD kvs "FriendlyName" (.str ""),
          url := dictGetD kvs "EnvironmentUrl" (.str ""),
          region := dictGetD kvs "Region" (.str ""),
          environment_type := dictGetD kvs "EnvironmentType" (.str ""),
          state := dictGetD kvs "State" (.str ""),
          created_time := parse_datetime (dictGetD kvs "CreatedTime" .null) }
  | _ => .error "AttributeError: get"

/-- The conversion loop of `refresh_environments`.  The Python code first
sets `self._environments = []` and then appends record by record, so on a
mid-loop exception the list holds exactly the converted prefix: the first
component is `false` and the second the prefix built before the raise. -/
def refreshLoop : List JVal → Bool × List PowerPlatformEnvironment
  | [] => (true, [])
  | env :: rest =>
    match convertRecord env with
    | .ok e =>
      let (ok, tail) := refreshLoop rest
      (ok, e :: tail)
    | .error _ => (false, [])

/-- `EnvironmentManager.refresh_environments`: call the façade, rebuild the
catalog record by record; any exception (from the façade call or from the
loop) is caught and turned into `false`.  Returns the flag and the state
after the call. -/
def refresh_environments (cli : PacCli) (st : State) : Bool × State :=
  match cli.get_environments with
  | .error _ => (false, st)
  | .ok env_data =>
    let (ok, envs) := refreshLoop env_data
    (ok, { st with environments := envs })

/-- `EnvironmentManager.get_environments`: a copy of the catalog. -/
def get_environments_list (st : State) : List PowerPlatformEnvironment :=
  st.environments

/-- `EnvironmentManager.select_environment`: delegate to the façade with
the environment's URL; on success record the argument as current; a
`false` return or an exception leaves the state unchanged, and the
exception is never propagated. -/
def select_environment (cli : PacCli) (environment : PowerPlatformEnvironment)
    (st : State) : Bool × State :=
  match cli.select_environment environment.url with
  | .ok true => (true, { st with current_environment := some environment })
  | .ok false => (false, st)
  | .error _ => (false, st)

/-- `EnvironmentManager.get_current_environment`. -/
def get_current_environment (st : State) : Option PowerPlatformEnvironment :=
  st.current_environment

/-- `d.get(key, 0)` over the insertion-ordered dict modelled as an
association list. -/
def countOf : List (JVal × Nat) → JVal → Nat
  | [], _ => 0
  | (a, n) :: rest, key => if a = key then n else countOf rest key

/-- `d[key] = v` over the insertion-ordered dict: update in place if the
key is present, append otherwise. -/
def dictSet : List (JVal × Nat) → JVal → Nat → List (JVal × Nat)
  | [], key, v => [(key, v)]
  | (a, n) :: rest, key, v =>
    if a = key then (a, v) :: rest else (a, n) :: dictSet rest key v

/-- `summary["by_..."][key] = summary["by_..."].get(key, 0) + 1` over the
insertion-ordered dict; an unhashable key (a Python `list` or `dict`)
raises `TypeError`. -/
def dictIncr (d : List (JVal × Nat)) (key : JVal) : Except String (List (JVal × Nat)) :=
  match key with
  | .arr _ => .error "TypeError: unhashable"
  | .obj _ => .error "TypeError: unhashable"
  | _ => .ok (dictSet d key (countOf d key + 1))

/-- The summary dictionary built by `get_environment_summary`. -/
structure Summary where
  total : Nat
  by_type : List (JVal × Nat)
  by_region : List (JVal × Nat)
  by_state : List (JVal × Nat)
deriving DecidableEq, Repr

/-- The body of the `for env in self._environments` loop of
`get_environment_summary`: bucket the three fields, falsy values under
`"Unknown"`. -/
def summaryStep (s : Summary) (env : PowerPlatformEnvironment) :
    Except String Summary := do
  let env_type := env.environment_type.pyOr (.str "Unknown")
  let by_type ← dictIncr s.by_type env_type
  let region := env.region.pyOr (.str "Unknown")
  let by_region ← dictIncr s.by_region region
  let state := env.state.pyOr (.str "Unknown")
  let by_state ← dictIncr s.by_state state
  .ok { s with by_type := by_type, by_region := by_region, by_state := by_state }

/-- `EnvironmentManager.get_environment_summary`: total plus counts by
type, region and state over the current catalog. -/
def get_environment_summary (st : State) : Except String Summary :=
  st.environments.foldlM summaryStep
    { total := st.environments.length, by_type := [], by_region := [], by_state := [] }

/-- Is the first character list a prefix of the second? -/
def charsLeadMatch : List Char → List Char → Bool
  | [], _ => true
  | _ :: _, [] => false
  | a :: as, b :: bs => a == b && charsLeadMatch as bs

/-- Does the first character list occur contiguously inside the second? -/
def charsContain : List Char → List Char → Bool
  | needle, [] => needle.isEmpty
  | needle, c :: rest =>
    charsLeadMatch needle (c :: rest) || charsContain needle rest

/-- Python's `needle in hay` on strings: substring containment. -/
def strIn (needle hay : String) : Bool := charsContain needle.data hay.data

/-- The predicate of the list comprehension in `search_environments`,
including Python's evaluation order: `.lower()` on the name first (an
`AttributeError` if it is not a string), the `or` short-circuiting before
the display name is touched. -/
def searchPred (query_lower : String) (env : PowerPlatformEnvironment) :
    Except String Bool := do
  let n ← env.name.pyLower
  if strIn query_lower n then .ok true
  else do
    let d ← env.display_name.pyLower
    .ok (strIn query_lower d)

/-- The list comprehension of `search_environments`: the predicate runs
left to right, an exception aborts the whole comprehension. -/
def searchFilter (query_lower : String) :
    List PowerPlatformEnvironment → Except String (List PowerPlatformEnvironment)
  | [] => .ok []
  | env :: rest => do
    let keep ← searchPred query_lower env
    let tail ← searchFilter query_lower rest
    .ok (if keep then env :: tail else tail)

/-- `EnvironmentManager.search_environments`: lower-case the query and keep
the environments whose name or display name contains it. -/
def search_environments (query : String) (st : State) :
    Except String (List PowerPlatformEnvironment) :=
  searchFilter (pyStrLower query) st.environments

end EnvironmentManager

open PACCLIWrapper EnvironmentManager

/-- A one-environment catalog predating a failing refresh. -/
def staleState : EnvironmentManager.State :=
  { environments := [{ name := .str "old", display_name := .str "Old",
                       url := .str "u", region := .str "r",
                       environment_type := .str "t", state := .str "s" }],
    current_environment := none }

/-- A façade whose listing call returns one convertible record followed by
a non-dict record, so the conversion loop raises `AttributeError`
mid-loop. -/
def midLoopFailureCli : PacCli :=
  { get_environments := .ok [.obj [("EnvironmentName", .str "alpha")], .num 42],
    select_environment := fun _ => .ok false }

/-- A façade whose listing call yields three records: a parsable ISO
timestamp without fraction, an unparsable timestamp, and a parsable
space-separated timestamp. -/
def mixedBatchCli : PacCli :=
  { get_environments := .ok
      [.obj [("EnvironmentName", .str "a"), ("CreatedTime", .str "2024-01-15T10:30:00Z")],
       .obj [("EnvironmentName", .str "b"), ("CreatedTime", .str "not-a-date")],
       .obj [("EnvironmentName", .str "c"), ("CreatedTime", .str "2024-01-15 10:30:00")]],
    select_environment := fun _ => .ok false }

/-- Is the value usable as a Python dict key (hashable)? Lists and dicts
are not. -/
def JVal.hashable : JVal → Bool
  | .arr _ => false
  | .obj _ => false
  | _ => true

/-- The bucket key for the type count: the field, or `"Unknown"` when
falsy. -/
def typeKey (e : PowerPlatformEnvironment) : JVal :=
  e.environment_type.pyOr (.str "Unknown")

/-- The bucket key for the region count. -/
def regionKey (e : PowerPlatformEnvironment) : JVal :=
  e.region.pyOr (.str "Unknown")

/-- The bucket key for the state count. -/
def stateKey (e : PowerPlatformEnvironment) : JVal :=
  e.state.pyOr (.str "Unknown")

/-- The pure counterpart of `dictIncr`, defined on any key. -/
def dictIncrP (d : List (JVal × Nat)) (key : JVal) : List (JVal × Nat) :=
  dictSet d key (countOf d key + 1)

/-- The pure counterpart of `EnvironmentManager.summaryStep`. -/
def summaryStepP (s : EnvironmentManager.Summary) (e : PowerPlatformEnvironment) :
    EnvironmentManager.Summary :=
  { s with by_type := dictIncrP s.by_type (typeKey e),
           by_region := dictIncrP s.by_region (regionKey e),
           by_state := dictIncrP s.by_state (stateKey e) }

/-- The summary value `get_environment_summary` computes, as a pure fold. -/
def summaryOf (st : EnvironmentManager.State) : EnvironmentManager.Summary :=
  st.environments.foldl summaryStepP
    { total := st.environments.length, by_type := [], by_region := [], by_state := [] }

/-- The catalog used in the specification's summary example: types
`Sandbox`, `Sandbox`, `Production` and an absent (`None`) type. -/
def summaryExampleState : EnvironmentManager.State :=
  { environments :=
      [{ name := .str "a", display_name := .str "a", url := .str "u1",
         region := .str "r", environment_type := .str "Sandbox", state := .str "s" },
       { name := .str "b", display_name := .str "b", url := .str "u2",
         region := .str "r", environment_type := .str "Sandbox", state := .str "s" },
       { name := .str "c", display_name := .str "c", url := .str "u3",
         region := .str "r", environment_type := .str "Production", state := .str "s" },
       { name := .str "d", display_name := .str "d", url := .str "u4",
         region := .str "r", environment_type := .null, state := .str "s" }],
    current_environment := none }

/-- **C2**: for every runner, argument list and timeout, `run_command`
returns a `CommandResult` whose success flag is true iff the process
completed with exit code zero (and in particular false on a timeout); on
a timeout it returns — never raises — the fixed record with
`success = false`, `exit_code = -1` and `stderr = "Command timed out"`. -/
theorem run_command_success_iff_exit_zero (runner : Runner)
    (command : List String) (timeout : Nat) :
    ((run_command runner command timeout).success = true ↔
      (runner ("pac" :: command) timeout).exitZero = true)
    ∧ (runner ("pac" :: command) timeout = .timedOut →
        run_command runner command timeout
          = { success := false, stdout := "", stderr := "Command timed out",
              returncode := -1,
              command := " ".intercalate ("pac" :: command) }) := by
  constructor
  · cases h : runner ("pac" :: command) timeout <;>
      simp [run_command, ProcResult.exitZero, h]
  · intro h
    simp [run_command, h]

/-- Witness for C2: a runner that always times out yields exactly the
fixed timeout record for `pac org list`. -/
theorem run_command_success_iff_exit_zero_witness :
    run_command (fun _ _ => ProcResult.timedOut) ["org", "list"] 30
      = { success := false, stdout := "", stderr := "Command timed out",
          returncode := -1, command := " ".intercalate ["pac", "org", "list"] } :=
  (run_command_success_iff_exit_zero (fun _ _ => ProcResult.timedOut)
    ["org", "list"] 30).2 rfl

/-- **C3**: whenever the underlying command completes with exit code 0 but
its stdout fails to decode as JSON, `get_environments` and
`get_solutions` each return the empty list (and, being total functions,
raise nothing). -/
theorem listings_empty_on_decode_failure (runner : Runner)
    (decode : String → Option (List JVal)) :
    (∀ out err, runner ["pac", "org", "list", "--json"] 30 = .completed 0 out err →
      decode out = none → get_environments runner decode = [])
    ∧ (∀ out err, runner ["pac", "solution", "list", "--json"] 30 = .completed 0 out err →
      decode out = none → get_solutions runner decode = []) := by
  constructor
  · intro out err hrun hdec
    simp [get_environments, run_command, hrun, hdec]
  · intro out err hrun hdec
    simp [get_solutions, run_command, hrun, hdec]

/-- Witness for C3: a concrete runner emitting non-JSON with exit code 0
and a decoder that rejects it give the empty list. -/
theorem listings_empty_on_decode_failure_witness :
    get_environments (fun _ _ => ProcResult.completed 0 "not json" "")
      (fun _ => none) = [] :=
  (listings_empty_on_decode_failure (fun _ _ => ProcResult.completed 0 "not json" "")
    (fun _ => none)).1 "not json" "" rfl rfl

/-- **C4**: whenever the underlying command completes with exit code 0 and
its stdout decodes as a JSON array, `get_environments` and
`get_solutions` return that decoded array itself — same length, and each
element exactly the decoded JSON value, with no further coercion. -/
theorem listings_roundtrip_decoded_array (runner : Runner)
    (decode : String → Option (List JVal)) :
    (∀ out err xs, runner ["pac", "org", "list", "--json"] 30 = .completed 0 out err →
      decode out = some xs →
      get_environments runner decode = xs ∧
        (get_environments runner decode).length = xs.length)
    ∧ (∀ out err xs, runner ["pac", "solution", "list", "--json"] 30 = .completed 0 out err →
      decode out = some xs →
      get_solutions runner decode = xs ∧
        (get_solutions runner decode).length = xs.length) := by
  constructor
  · intro out err xs hrun hdec
    have h : get_environments runner decode = xs := by
      simp [get_environments, run_command, hrun, hdec]
    exact ⟨h, by rw [h]⟩
  · intro out err xs hrun hdec
    have h : get_solutions runner decode = xs := by
      simp [get_solutions, run_command, hrun, hdec]
    exact ⟨h, by rw [h]⟩

/-- Witness for C4: a two-element decoded array is returned unchanged. -/
theorem listings_roundtrip_decoded_array_witness :
    get_environments (fun _ _ => ProcResult.completed 0 "[1, \x7b\x7d]" "")
      (fun _ => some [JVal.num 1, JVal.obj []]) = [JVal.num 1, JVal.obj []] :=
  ((listings_roundtrip_decoded_array
      (fun _ _ => ProcResult.completed 0 "[1, \x7b\x7d]" "")
      (fun _ => some [JVal.num 1, JVal.obj []])).1
    "[1, \x7b\x7d]" "" [JVal.num 1, JVal.obj []] rfl rfl).1

/-- **C9**: `export_solution` builds a command containing `"--managed"`
exactly when `managed` is requested (the name/path arguments themselves
not being that flag) and hands it to the process layer with a 300-second
timeout; `import_solution` builds a command containing
`"--publish-changes"` exactly when requested and uses a 600-second
timeout, longer than export's; commands issued without an explicit
timeout — such as the selection command — reach the process layer with
the 30-second default. -/
theorem solution_command_flags_and_timeouts (runner : Runner)
    (solution_name output_path solution_path : String) (managed publish : Bool)
    (hn : solution_name ≠ "--managed") (hp : output_path ≠ "--managed")
    (hs : solution_path ≠ "--publish-changes") :
    ("--managed" ∈ export_command solution_name output_path managed ↔ managed = true)
    ∧ ("--publish-changes" ∈ import_command solution_path publish ↔ publish = true)
    ∧ export_solution runner solution_name output_path managed
        = (runner ("pac" :: export_command solution_name output_path managed) 300).exitZero
    ∧ import_solution runner solution_path publish
        = (runner ("pac" :: import_command solution_path publish) 600).exitZero
    ∧ (∀ url, PACCLIWrapper.select_environment runner url
        = (runner ["pac", "org", "select", "--environment", url] 30).exitZero)
    ∧ (300 : Nat) < 600 := by
  refine ⟨?_, ?_, ?_, ?_, ?_, by norm_num⟩
  · cases managed <;>
      simp [export_command, Ne.symm hn, Ne.symm hp]
  · cases publish <;>
      simp [import_command, Ne.symm hs]
  · cases h : runner ("pac" :: export_command solution_name output_path managed) 300 <;>
      simp [export_solution, run_command, ProcResult.exitZero, h]
  · cases h : runner ("pac" :: import_command solution_path publish) 600 <;>
      simp [import_solution, run_command, ProcResult.exitZero, h]
  · intro url
    cases h : runner ["pac", "org", "select", "--environment", url] 30 <;>
      simp [PACCLIWrapper.select_environment, run_command, ProcResult.exitZero, h]

/-- Witness for C9, at a concrete runner and concrete names. -/
theorem solution_command_flags_and_timeouts_witness :
    "--managed" ∈ export_command "MySolution" "out.zip" true :=
  (solution_command_flags_and_timeouts (fun _ _ => ProcResult.timedOut)
    "MySolution" "out.zip" "sol.zip" true true
    (by decide) (by decide) (by decide)).1.mpr rfl

/-- **C6**: whenever the façade's `select_environment` reports failure
(returns `false`), the directory's `select_environment` returns `false`
and the state — in particular the current selection — is exactly what it
was; the argument is recorded as current precisely on success, with no
hypothesis whatsoever that it belongs to the catalog (the outcome flag
does not even depend on the catalog). -/
theorem select_records_only_on_success (cli : PacCli)
    (env : PowerPlatformEnvironment) (st : EnvironmentManager.State) :
    (cli.select_environment env.url = .ok false →
      EnvironmentManager.select_environment cli env st = (false, st))
    ∧ (cli.select_environment env.url = .ok true →
      EnvironmentManager.select_environment cli env st
        = (true, { st with current_environment := some env }))
    ∧ ((EnvironmentManager.select_environment cli env st).1 = false →
      (EnvironmentManager.select_environment cli env st).2 = st)
    ∧ ((EnvironmentManager.select_environment cli env st).1
        = (EnvironmentManager.select_environment cli env
            { environments := [], current_environment := st.current_environment }).1) := by
  refine ⟨?_, ?_, ?_, ?_⟩ <;>
    rcases h : cli.select_environment env.url with e | b <;>
    (try cases b) <;>
    simp [EnvironmentManager.select_environment, h]

/-- Witness for C6: a façade that reports failure leaves a concrete state
unchanged. -/
theorem select_records_only_on_success_witness :
    EnvironmentManager.select_environment
      { get_environments := .ok [], select_environment := fun _ => .ok false }
      { name := .str "n", display_name := .str "d", url := .str "u",
        region := .str "r", environment_type := .str "t", state := .str "s" }
      { environments := [], current_environment := none }
    = (false, { environments := [], current_environment := none }) :=
  (select_records_only_on_success
    { get_environments := .ok [], select_environment := fun _ => .ok false }
    { name := .str "n", display_name := .str "d", url := .str "u",
      region := .str "r", environment_type := .str "t", state := .str "s" }
    { environments := [], current_environment := none }).1 rfl

/-- **C10**: an exception raised by the façade call inside the directory's
`select_environment` is caught: the method returns `false`, the state —
including the current selection — is unchanged, and nothing propagates. -/
theorem select_swallows_exceptions (cli : PacCli)
    (env : PowerPlatformEnvironment) (st : EnvironmentManager.State)
    (e : String) (h : cli.select_environment env.url = .error e) :
    EnvironmentManager.select_environment cli env st = (false, st) := by
  simp [EnvironmentManager.select_environment, h]

/-- Witness for C10: a façade whose selection call raises leaves a concrete
state unchanged and yields `false`. -/
theorem select_swallows_exceptions_witness :
    EnvironmentManager.select_environment
      { get_environments := .ok [], select_environment := fun _ => .error "boom" }
      { name := .str "n", display_name := .str "d", url := .str "u",
        region := .str "r", environment_type := .str "t", state := .str "s" }
      { environments := [], current_environment := none }
    = (false, { environments := [], current_environment := none }) :=
  select_swallows_exceptions
    { get_environments := .ok [], select_environment := fun _ => .error "boom" }
    { name := .str "n", display_name := .str "d", url := .str "u",
      region := .str "r", environment_type := .str "t", state := .str "s" }
    { environments := [], current_environment := none }
    "boom" rfl

/-- On input made of a convertible prefix, a record whose conversion
raises, and anything after it, the refresh loop reports failure holding
exactly the converted prefix (the Python loop has already re-assigned and
partially refilled `self._environments` when the exception fires). -/
theorem refreshLoop_fail_mid (pre : List JVal) (bad : JVal) (rest : List JVal)
    (hpre : ∀ r ∈ pre, (convertRecord r).isOk = true)
    (hbad : (convertRecord bad).isOk = false) :
    refreshLoop (pre ++ bad :: rest)
      = (false, pre.filterMap fun r => (convertRecord r).toOption) := by
  induction pre with
  | nil =>
    simp only [List.nil_append, List.filterMap_nil]
    cases h : convertRecord bad with
    | ok e => rw [h] at hbad; simp [Except.isOk, Except.toBool] at hbad
    | error e => simp [refreshLoop, h]
  | cons r pre ih =>
    have hr := hpre r (by simp)
    cases h : convertRecord r with
    | error e => rw [h] at hr; simp [Except.isOk, Except.toBool] at hr
    | ok e =>
      have hih := ih (fun r hrm => hpre r (by simp [hrm]))
      simp [refreshLoop, h, hih, Except.toOption]

/-- **C1, counterexample**: a refresh that fails mid-loop (here on the
second, non-dict record) returns `false` yet leaves the catalog different
from its previous value — the previously cached catalog is not intact, so
the claim as stated is false. -/
theorem refresh_not_atomic_counterexample :
    (refresh_environments midLoopFailureCli staleState).1 = false
    ∧ (refresh_environments midLoopFailureCli staleState).2.environments
        ≠ staleState.environments := by
  decide

/-- **C1** (amended): a refresh that fails because the façade call raises
leaves the state — catalog and selection — fully intact and returns
`false` without propagating; the current selection survives every
refresh; but a refresh that fails because converting a raw record raises
mid-loop returns `false` with the catalog replaced by the prefix of
records converted before the exception (the previous catalog is lost). -/
theorem refresh_failure_behaviour (cli : PacCli) (st : EnvironmentManager.State) :
    (∀ e, cli.get_environments = .error e →
      refresh_environments cli st = (false, st))
    ∧ ((refresh_environments cli st).2.current_environment = st.current_environment)
    ∧ (∀ pre bad rest, cli.get_environments = .ok (pre ++ bad :: rest) →
        (∀ r ∈ pre, (convertRecord r).isOk = true) →
        (convertRecord bad).isOk = false →
        refresh_environments cli st
          = (false, { st with environments :=
              (pre.filterMap fun r => (convertRecord r).toOption) })) := by
  refine ⟨?_, ?_, ?_⟩
  · intro e h
    simp [refresh_environments, h]
  · cases h : cli.get_environments with
    | error e => simp [refresh_environments, h]
    | ok env_data => simp [refresh_environments, h]
  · intro pre bad rest h hpre hbad
    simp [refresh_environments, h, refreshLoop_fail_mid pre bad rest hpre hbad]

/-- Witness for the amended C1, at the concrete mid-loop failure: the
catalog afterwards holds exactly the single converted record. -/
theorem refresh_failure_behaviour_witness :
    refresh_environments midLoopFailureCli staleState
      = (false, { staleState with environments :=
          [{ name := .str "alpha", display_name := .str "", url := .str "",
             region := .str "", environment_type := .str "", state := .str "",
             created_time := none }] }) :=
  (refresh_failure_behaviour midLoopFailureCli staleState).2.2
    [.obj [("EnvironmentName", .str "alpha")]] (.num 42) [] rfl
    (by decide) (by decide)

/-- **C5**: the timestamp parser tries
`%Y-%m-%dT%H:%M:%S.%fZ`, `%Y-%m-%dT%H:%M:%SZ`, `%Y-%m-%d %H:%M:%S` in
that order with the first success winning; the three sample inputs parse
to the same wall-clock instant to second precision; `"not-a-date"` gives
an absent timestamp without raising; and a refresh over a batch whose
middle record has that unparsable timestamp still succeeds for the whole
batch, with only that record's timestamp absent. -/
theorem parse_datetime_format_policy :
    (∀ s dt, strptime s "%Y-%m-%dT%H:%M:%S.%fZ" = some dt →
      parse_datetime (.str s) = some dt)
    ∧ (∀ s dt, strptime s "%Y-%m-%dT%H:%M:%S.%fZ" = none →
        strptime s "%Y-%m-%dT%H:%M:%SZ" = some dt →
        parse_datetime (.str s) = some dt)
    ∧ (∀ s, strptime s "%Y-%m-%dT%H:%M:%S.%fZ" = none →
        strptime s "%Y-%m-%dT%H:%M:%SZ" = none →
        parse_datetime (.str s) = strptime s "%Y-%m-%d %H:%M:%S")
    ∧ ((parse_datetime (.str "2024-01-15T10:30:00.123456Z")).map DateTime.toSecond
        = some (2024, 1, 15, 10, 30, 0)
      ∧ (parse_datetime (.str "2024-01-15T10:30:00Z")).map DateTime.toSecond
        = some (2024, 1, 15, 10, 30, 0)
      ∧ (parse_datetime (.str "2024-01-15 10:30:00")).map DateTime.toSecond
        = some (2024, 1, 15, 10, 30, 0))
    ∧ parse_datetime (.str "not-a-date") = none
    ∧ refresh_environments mixedBatchCli { environments := [], current_environment := none }
        = (true,
           { environments :=
              [{ name := .str "a", display_name := .str "", url := .str "",
                 region := .str "", environment_type := .str "", state := .str "",
                 created_time := some ⟨2024, 1, 15, 10, 30, 0, 0⟩ },
               { name := .str "b", display_name := .str "", url := .str "",
                 region := .str "", environment_type := .str "", state := .str "",
                 created_time := none },
               { name := .str "c", display_name := .str "", url := .str "",
                 region := .str "", environment_type := .str "", state := .str "",
                 created_time := some ⟨2024, 1, 15, 10, 30, 0, 0⟩ }],
             current_environment := none }) := by
  refine ⟨?_, ?_, ?_, ⟨by decide, by decide, by decide⟩, by decide, by decide⟩
  · intro s dt h
    by_cases hs : s = ""
    · subst hs
      have : strptime "" "%Y-%m-%dT%H:%M:%S.%fZ" = none := by decide
      rw [this] at h
      exact absurd h (by simp)
    · simp only [parse_datetime, JVal.pyTruthy]
      rw [if_neg (by simpa using hs)]
      simp [tryFormats, formats, h]
  · intro s dt h1 h2
    by_cases hs : s = ""
    · subst hs
      have : strptime "" "%Y-%m-%dT%H:%M:%SZ" = none := by decide
      rw [this] at h2
      exact absurd h2 (by simp)
    · simp only [parse_datetime, JVal.pyTruthy]
      rw [if_neg (by simpa using hs)]
      simp [tryFormats, formats, h1, h2]
  · intro s h1 h2
    by_cases hs : s = ""
    · subst hs
      decide
    · simp only [parse_datetime, JVal.pyTruthy]
      rw [if_neg (by simpa using hs)]
      simp only [tryFormats, formats, h1, h2]
      cases strptime s "%Y-%m-%d %H:%M:%S" <;> rfl

/-- Witness for C5: the second format parses the fraction-less ISO input,
the first having failed on it. -/
theorem parse_datetime_format_policy_witness :
    parse_datetime (.str "2024-01-15T10:30:00Z")
      = some ⟨2024, 1, 15, 10, 30, 0, 0⟩ :=
  parse_datetime_format_policy.2.1 "2024-01-15T10:30:00Z"
    ⟨2024, 1, 15, 10, 30, 0, 0⟩ (by decide) (by decide)

/-- Reduction of `Except` bind on a success value. -/
theorem exceptBind_ok {e a b : Type} (x : a) (f : a → Except e b) :
    (Except.ok x >>= f) = f x := rfl

/-- Reduction of `Except` bind on an error value. -/
theorem exceptBind_error {e a b : Type} (x : e) (f : a → Except e b) :
    ((Except.error x : Except e a) >>= f) = .error x := rfl

/-- The empty character list occurs in every character list. -/
theorem charsContain_nil (l : List Char) : charsContain [] l = true := by
  induction l with
  | nil => rfl
  | cons c rest ih => simp [charsContain, charsLeadMatch]

/-- Every character list is a prefix of itself. -/
theorem charsLeadMatch_refl (l : List Char) : charsLeadMatch l l = true := by
  induction l with
  | nil => rfl
  | cons c rest ih => simp [charsLeadMatch, ih]

/-- The empty string is a substring of every string. -/
theorem strIn_empty (s : String) : strIn "" s = true := charsContain_nil s.data

/-- Every string is a substring of itself. -/
theorem strIn_self (s : String) : strIn s s = true := by
  unfold strIn
  cases h : s.data with
  | nil => rfl
  | cons c rest => simp [charsContain, charsLeadMatch_refl]

/-- On a catalog whose names and display names are strings, the search
comprehension never raises and agrees with a pure filter on the
case-insensitive substring predicate. -/
theorem searchFilter_eq_filter (ql : String) (l : List PowerPlatformEnvironment)
    (h : ∀ e ∈ l, e.name.isStr = true ∧ e.display_name.isStr = true) :
    searchFilter ql l
      = .ok (l.filter (fun e =>
          strIn ql (pyStrLower e.name.asStr) || strIn ql (pyStrLower e.display_name.asStr))) := by
  induction l with
  | nil => rfl
  | cons e rest ih =>
    obtain ⟨hn, hd⟩ := h e (by simp)
    have hih := ih (fun x hx => h x (by simp [hx]))
    cases hname : e.name <;> rw [hname] at hn <;> simp [JVal.isStr] at hn
    cases hdisp : e.display_name <;> rw [hdisp] at hd <;> simp [JVal.isStr] at hd
    rename_i n d
    by_cases hq : strIn ql (pyStrLower n) = true
    · simp [searchFilter, searchPred, hname, hdisp, JVal.pyLower, JVal.asStr,
        hq, hih, exceptBind_ok, List.filter_cons]
    · have hq2 : strIn ql (pyStrLower n) = false := by simpa using hq
      simp [searchFilter, searchPred, hname, hdisp, JVal.pyLower, JVal.asStr,
        hq2, hih, exceptBind_ok, List.filter_cons]

/-- **C7**: on catalogs of string-named environments, `search_environments`
returns exactly the environments whose internal name or display name
contains the query as a case-insensitive substring; the empty query
matches everything; and a query equal to a stored name up to letter case
still matches that environment. -/
theorem search_case_insensitive_substring (query : String)
    (st : EnvironmentManager.State)
    (h : ∀ e ∈ st.environments, e.name.isStr = true ∧ e.display_name.isStr = true) :
    (search_environments query st
      = .ok (st.environments.filter (fun e =>
          strIn (pyStrLower query) (pyStrLower e.name.asStr)
            || strIn (pyStrLower query) (pyStrLower e.display_name.asStr))))
    ∧ (query = "" → search_environments query st = .ok st.environments)
    ∧ (∀ e ∈ st.environments, pyStrLower e.name.asStr = pyStrLower query →
        e ∈ st.environments.filter (fun e =>
          strIn (pyStrLower query) (pyStrLower e.name.asStr)
            || strIn (pyStrLower query) (pyStrLower e.display_name.asStr))) := by
  refine ⟨searchFilter_eq_filter (pyStrLower query) st.environments h, ?_, ?_⟩
  · intro hq
    subst hq
    show searchFilter (pyStrLower "") st.environments = _
    rw [searchFilter_eq_filter (pyStrLower "") st.environments h]
    have : pyStrLower "" = "" := rfl
    rw [this]
    congr 1
    exact List.filter_eq_self.mpr
      (fun e _ => by simp [strIn_empty])
  · intro e he hname
    exact List.mem_filter.mpr ⟨he, by rw [hname]; simp [strIn_self]⟩

/-- Witness for C7, on the spec's example: `search("PROD")` against
`prod-eu`/`Production EU` and `dev-us`/`Development US` returns only the
first. -/
theorem search_case_insensitive_substring_witness :
    search_environments "PROD"
      { environments :=
          [{ name := .str "prod-eu", display_name := .str "Production EU",
             url := .str "u1", region := .str "r", environment_type := .str "t",
             state := .str "s" },
           { name := .str "dev-us", display_name := .str "Development US",
             url := .str "u2", region := .str "r", environment_type := .str "t",
             state := .str "s" }],
        current_environment := none }
      = .ok [{ name := .str "prod-eu", display_name := .str "Production EU",
               url := .str "u1", region := .str "r", environment_type := .str "t",
               state := .str "s" }] := by
  have := (search_case_insensitive_substring "PROD"
    { environments :=
        [{ name := .str "prod-eu", display_name := .str "Production EU",
           url := .str "u1", region := .str "r", environment_type := .str "t",
           state := .str "s" },
         { name := .str "dev-us", display_name := .str "Development US",
           url := .str "u2", region := .str "r", environment_type := .str "t",
           state := .str "s" }],
      current_environment := none } (by decide)).1
  rw [this]
  decide

/-- On a hashable key, `dictIncr` succeeds with the pure increment. -/
theorem dictIncr_hashable (d : List (JVal × Nat)) (k : JVal)
    (hk : k.hashable = true) : dictIncr d k = .ok (dictIncrP d k) := by
  cases k <;> simp [JVal.hashable] at hk <;>
    simp [dictIncr, dictIncrP]

/-- The pure increment adds exactly one to the incremented key's count and
leaves every other count unchanged. -/
theorem countOf_dictIncrP (d : List (JVal × Nat)) (k k' : JVal) :
    countOf (dictIncrP d k) k' = countOf d k' + (if k' = k then 1 else 0) := by
  unfold dictIncrP
  induction d with
  | nil =>
    simp only [countOf, dictSet]
    by_cases hk : k' = k
    · subst hk; simp [countOf]
    · simp [countOf, hk, Ne.symm hk]
  | cons a rest ih =>
    obtain ⟨ak, an⟩ := a
    by_cases hak : ak = k
    · subst hak
      simp only [countOf, dictSet, if_pos rfl]
      by_cases ha : ak = k'
      · subst ha
        simp [countOf]
      · simp [countOf, ha, Ne.symm ha]
    · simp only [countOf, dictSet, if_neg hak]
      by_cases ha : ak = k'
      · subst ha
        simp [countOf, hak]
      · simp only [countOf, if_neg ha]
        exact ih

/-- On hashable bucket keys, one summary step succeeds with its pure
counterpart. -/
theorem summaryStep_hashable (s : EnvironmentManager.Summary)
    (e : PowerPlatformEnvironment)
    (h1 : (typeKey e).hashable = true) (h2 : (regionKey e).hashable = true)
    (h3 : (stateKey e).hashable = true) :
    EnvironmentManager.summaryStep s e = .ok (summaryStepP s e) := by
  unfold typeKey at h1
  unfold regionKey at h2
  unfold stateKey at h3
  simp [EnvironmentManager.summaryStep, summaryStepP, typeKey, regionKey, stateKey,
    dictIncr_hashable _ _ h1, dictIncr_hashable _ _ h2, dictIncr_hashable _ _ h3,
    exceptBind_ok]

/-- On hashable bucket keys, the whole summary fold succeeds with the pure
fold. -/
theorem foldlM_summaryStep (l : List PowerPlatformEnvironment)
    (h : ∀ e ∈ l, (typeKey e).hashable = true ∧ (regionKey e).hashable = true
      ∧ (stateKey e).hashable = true) :
    ∀ s : EnvironmentManager.Summary,
      l.foldlM EnvironmentManager.summaryStep s = .ok (l.foldl summaryStepP s) := by
  induction l with
  | nil => intro s; rfl
  | cons e rest ih =>
    intro s
    obtain ⟨h1, h2, h3⟩ := h e (by simp)
    rw [List.foldlM_cons, summaryStep_hashable s e h1 h2 h3, exceptBind_ok,
      List.foldl_cons]
    exact ih (fun x hx => h x (by simp [hx])) _

/-- The pure summary fold never changes the stored total. -/
theorem total_foldl_summaryStepP (l : List PowerPlatformEnvironment) :
    ∀ s : EnvironmentManager.Summary, (l.foldl summaryStepP s).total = s.total := by
  induction l with
  | nil => intro s; rfl
  | cons e rest ih =>
    intro s
    rw [List.foldl_cons, ih]
    rfl

/-- Each count dictionary of the pure summary fold counts occurrences of
its bucket key, for any projection that commutes with the step. -/
theorem countOf_foldl_component
    (proj : EnvironmentManager.Summary → List (JVal × Nat))
    (keyf : PowerPlatformEnvironment → JVal)
    (hcomm : ∀ s e, proj (summaryStepP s e) = dictIncrP (proj s) (keyf e)) :
    ∀ (l : List PowerPlatformEnvironment) (s : EnvironmentManager.Summary) (k : JVal),
      countOf (proj (l.foldl summaryStepP s)) k
        = countOf (proj s) k + l.countP (fun e => decide (keyf e = k)) := by
  intro l
  induction l with
  | nil => intro s k; simp
  | cons e rest ih =>
    intro s k
    rw [List.foldl_cons, ih, hcomm, countOf_dictIncrP, List.countP_cons]
    by_cases hk : keyf e = k
    · simp [hk]
      omega
    · simp [hk]
      exact fun h => hk h.symm

/-- **C8**: on catalogs whose bucket keys are hashable,
`get_environment_summary` reports the catalog size as `total` and maps
each bucket key — with falsy (absent/empty) field values folded into the
fixed `"Unknown"` label — to its number of occurrences, for type, region
and state alike; on the specification's example the type counts are
`Sandbox: 2, Production: 1, Unknown: 1` with total 4. -/
theorem summary_counts :
    (∀ st : EnvironmentManager.State,
      (∀ e ∈ st.environments, (typeKey e).hashable = true
        ∧ (regionKey e).hashable = true ∧ (stateKey e).hashable = true) →
      get_environment_summary st = .ok (summaryOf st)
      ∧ (summaryOf st).total = st.environments.length
      ∧ (∀ k, countOf (summaryOf st).by_type k
          = st.environments.countP (fun e => decide (typeKey e = k)))
      ∧ (∀ k, countOf (summaryOf st).by_region k
          = st.environments.countP (fun e => decide (regionKey e = k)))
      ∧ (∀ k, countOf (summaryOf st).by_state k
          = st.environments.countP (fun e => decide (stateKey e = k))))
    ∧ get_environment_summary summaryExampleState
        = .ok { total := 4,
                by_type := [(.str "Sandbox", 2), (.str "Production", 1),
                            (.str "Unknown", 1)],
                by_region := [(.str "r", 4)],
                by_state := [(.str "s", 4)] } := by
  constructor
  · intro st h
    refine ⟨foldlM_summaryStep st.environments h _, ?_, ?_, ?_, ?_⟩
    · rw [summaryOf, total_foldl_summaryStepP]
    · intro k
      rw [summaryOf,
        countOf_foldl_component EnvironmentManager.Summary.by_type typeKey
          (fun _ _ => rfl)]
      simp [countOf]
    · intro k
      rw [summaryOf,
        countOf_foldl_component EnvironmentManager.Summary.by_region regionKey
          (fun _ _ => rfl)]
      simp [countOf]
    · intro k
      rw [summaryOf,
        countOf_foldl_component EnvironmentManager.Summary.by_state stateKey
          (fun _ _ => rfl)]
      simp [countOf]
  · decide

/-- Witness for C8: on the example catalog, the `Sandbox` count equals the
number of environments whose type bucket is `Sandbox`. -/
theorem summary_counts_witness :
    countOf (summaryOf summaryExampleState).by_type (.str "Sandbox")
      = summaryExampleState.environments.countP
          (fun e => decide (typeKey e = .str "Sandbox")) :=
  (summary_counts.1 summaryExampleState (by decide)).2.2.1 (.str "Sandbox")
